import Mathlib

/-!
Verification development for the gift-card record ingestion pipeline
(`src/app/add-card/page.tsx`): field validation, duplicate detection,
CSV parsing and per-row classification, and the session-local commit
model (ledger plus intake state machine).

Strings are modelled as `List Char` (ASCII scope: the JavaScript string
primitives `trim`, `toLowerCase`, `split`, `endsWith`, `includes` are
embedded as functions on character lists).  Amounts are modelled as
exact rationals: `parseFloat` is embedded as `jsParseFloat`, returning
`none` for NaN, covering sign, integer digits and a fractional part
(exponent forms and `Infinity` are outside the scope of the inputs the
pipeline handles and are not modelled).  `Date.now()` readings enter as
explicit integer clock parameters.
-/

abbrev Str := List Char

/-- The whitespace characters stripped by JavaScript `trim` (ASCII range). -/
def jsWhitespace (c : Char) : Bool :=
  c = ' ' || c = '\t' || c = '\n' || c = '\r' || c = '\x0b' || c = '\x0c'

/-- JavaScript `String.prototype.trim`: drop whitespace from both ends. -/
def trimChars (l : Str) : Str :=
  ((l.dropWhile jsWhitespace).reverse.dropWhile jsWhitespace).reverse

/-- JavaScript `String.prototype.toLowerCase` (ASCII range). -/
def toLowerStr (l : Str) : Str := l.map Char.toLower

/-- JavaScript `needle.includes` receiver check: is `needle` a contiguous
substring of `hay`? -/
def isSubstr (needle : Str) : Str → Bool
  | [] => needle.isEmpty
  | c :: t => needle.isPrefixOf (c :: t) || isSubstr needle t

/-- The regular expression test from the source, spelled
regex ^ backslash-d {4} $ : exactly four decimal digits. -/
def isFourDigits (s : Str) : Bool := s.length == 4 && s.all Char.isDigit

/-- Value of a digit string read in base 10. -/
def digitsVal (l : Str) : Nat := l.foldl (fun n c => 10 * n + (c.toNat - '0'.toNat)) 0

/-- An exact decimal number `mant / 10 ^ scale`, the result of a successful
`parseFloat`.  Kept unnormalised so that every operation the pipeline
performs on it is kernel-computable. -/
structure JsNumber where
  mant : Int
  scale : Nat
deriving DecidableEq

/-- The rational value of a parsed number (used in statements). -/
def JsNumber.toRat (x : JsNumber) : ℚ := (x.mant : ℚ) / (10 : ℚ) ^ x.scale

/-- JavaScript `parseFloat`, embedded exactly: skip leading whitespace,
optional sign, then the longest prefix of the form `digits [ . digits ]`
or `. digits`; `none` models NaN (no digits found).  Exponent forms and
`Infinity` are outside the scope of the pipeline's inputs and are not
modelled. -/
def jsParseFloat (s : Str) : Option JsNumber :=
  let s1 := s.dropWhile jsWhitespace
  let neg := s1.headD ' ' = '-'
  let s2 := if s1.headD ' ' = '-' || s1.headD ' ' = '+' then s1.tail else s1
  let intPart := s2.takeWhile Char.isDigit
  let rest := s2.dropWhile Char.isDigit
  let fracPart := if rest.headD ' ' = '.' then rest.tail.takeWhile Char.isDigit else []
  if intPart.isEmpty && fracPart.isEmpty then none
  else
    let mag : Nat := digitsVal intPart * 10 ^ fracPart.length + digitsVal fracPart
    some ⟨if neg then -(mag : Int) else (mag : Int), fracPart.length⟩

-- ── Data model ────────────────────────────────────────────────────────────────

/-- `FormData` from the source: the candidate record fields, all text. -/
structure FormData where
  store : Str
  last4 : Str
  amount : Str
  addedBy : Str
  notes : Str
deriving DecidableEq

/-- `FieldErrors` from the source: an optional message per validated field
(`none` models an absent key; `notes` has no error slot). -/
structure FieldErrors where
  store : Option Str := none
  last4 : Option Str := none
  amount : Option Str := none
  addedBy : Option Str := none
deriving DecidableEq

/-- `EMPTY_FORM` from the source. -/
def EMPTY_FORM : FormData := ⟨[], [], [], [], []⟩

/-- The empty `FieldErrors` object (no keys assigned). -/
def noFieldErrors : FieldErrors := ⟨none, none, none, none⟩

/-- A record of the pre-existing dataset (`existingData.cards` entries,
schema per the external loader): balances are `Option ℚ` with `none`
modelling NaN. -/
structure ExistingCard where
  id : Int
  store : Str
  last4 : Str
  initialBalance : Option JsNumber
  remainingBalance : Option JsNumber
  status : Str
  addedDate : Str
  addedBy : Str
deriving DecidableEq

-- ── Field Validator ───────────────────────────────────────────────────────────

/-- The amount rule shared by `validateForm` and `parseCSV` in the source:
`!amount || isNaN(parseFloat(amount)) || parseFloat(amount) <= 0`. -/
def amountInvalid (amount : Str) : Bool :=
  amount.isEmpty ||
    (match jsParseFloat amount with
     | none => true
     | some a => decide (a.mant ≤ 0))

/-- `validateForm` from the source: each rule assigns its field's message
independently of the other fields. -/
def validateForm (form : FormData) : FieldErrors :=
  { store := if (trimChars form.store).isEmpty then some "Store is required".toList else none
    last4 := if !isFourDigits form.last4 then some "Must be exactly 4 digits".toList else none
    amount := if amountInvalid form.amount then some "Enter a valid dollar amount".toList else none
    addedBy := if (trimChars form.addedBy).isEmpty then some "Added by is required".toList else none }

-- ── Duplicate Index ───────────────────────────────────────────────────────────

/-- The match predicate of `findDuplicate` in the source. -/
def dupMatch (store last4 : Str) (c : ExistingCard) : Bool :=
  toLowerStr c.store == toLowerStr store && c.last4 == last4

/-- `findDuplicate` from the source: first match in pool iteration order
(`Array.prototype.find`, with `?? null` folded into `Option`). -/
def findDuplicate (store last4 : Str) (cards : List ExistingCard) : Option ExistingCard :=
  cards.find? (dupMatch store last4)

-- ── CSV Parser ────────────────────────────────────────────────────────────────

inductive RowStatus
  | valid
  | duplicate
  | error
deriving DecidableEq

/-- `CSVRow` from the source. -/
structure CSVRow where
  rowNum : Nat
  store : Str
  last4 : Str
  amount : Str
  addedBy : Str
  notes : Str
  status : RowStatus
  errors : List Str
deriving DecidableEq

/-- JavaScript `text.split` on the regex matching an optional carriage
return followed by a newline. -/
def jsSplitLines : Str → List Str
  | [] => [[]]
  | '\r' :: '\n' :: rest => [] :: jsSplitLines rest
  | '\n' :: rest => [] :: jsSplitLines rest
  | c :: rest =>
    match jsSplitLines rest with
    | [] => [[c]]
    | h :: t => (c :: h) :: t

/-- `line.split(",").map(p => p.trim())` from the source. -/
def lineParts (line : Str) : List Str := (line.splitOn ',').map trimChars

/-- The per-row error accumulation of `parseCSV` (the four `errors.push`
sites, in source order). -/
def rowErrors (store last4 amount addedBy : Str) : List Str :=
  (if store.isEmpty then ["Store missing".toList] else []) ++
  (if !isFourDigits last4 then ["Last 4 must be exactly 4 digits".toList] else []) ++
  (if amountInvalid amount then ["Invalid amount".toList] else []) ++
  (if addedBy.isEmpty then ["Added by missing".toList] else [])

/-- The classification body of `parseCSV`'s `map` callback: split one line
on commas, trim each token, destructure the first four fields, rejoin the
rest into `notes`, run the validation rules, consult the pre-existing
dataset, and derive the status. -/
def classifyRow (existingCards : List ExistingCard) (i : Nat) (line : Str) : CSVRow :=
  let parts := lineParts line
  let store := parts.getD 0 []
  let last4 := parts.getD 1 []
  let amount := parts.getD 2 []
  let addedBy := parts.getD 3 []
  let notes := trimChars ([','].intercalate (parts.drop 4))
  let errors := rowErrors store last4 amount addedBy
  let isDup := findDuplicate store last4 existingCards
  { rowNum := i + 1, store := store, last4 := last4, amount := amount, addedBy := addedBy,
    notes := notes,
    status := if !errors.isEmpty then .error else if isDup.isSome then .duplicate else .valid,
    errors := errors }

/-- The indexed `map` over the surviving data lines. -/
def classifyRows (existingCards : List ExistingCard) : Nat → List Str → List CSVRow
  | _, [] => []
  | i, l :: ls => classifyRow existingCards i l :: classifyRows existingCards (i + 1) ls

/-- The surviving data lines of `parseCSV`: trim the whole text, split on
line boundaries, drop a header line whose lowercased content contains
"store", drop blank lines. -/
def csvDataLines (text : Str) : List Str :=
  let lines := jsSplitLines (trimChars text)
  let dataLines := if isSubstr "store".toList (toLowerStr (lines.headD [])) then lines.tail else lines
  dataLines.filter (fun l => !(trimChars l).isEmpty)

/-- `parseCSV` from the source.  The module-global `existingData.cards`
(the pre-existing dataset, supplied by an external loader) is the explicit
first parameter; the session ledger never enters this function. -/
def parseCSV (existingCards : List ExistingCard) (text : Str) : List CSVRow :=
  classifyRows existingCards 0 (csvDataLines text)

/-- `CSV_TEMPLATE` from the source (fixed downloadable template text). -/
def CSV_TEMPLATE : Str :=
  "store,last4,amount,added_by,notes\nWalmart,1234,100.00,Sarah Johnson,Example card\nTarget,5678,50.00,Mike Davis,".toList

-- ── Session Ledger and Intake State Machine ───────────────────────────────────

/-- A committed session record: `FormData & \x7b id: number \x7d` in the
source; the identifier is the `Date.now()` reading taken at commit time
(plus a per-row offset for bulk imports). -/
structure AddedCard extends FormData where
  id : Int
deriving DecidableEq

inductive Stage
  | form
  | confirmDuplicate
  | success
deriving DecidableEq

/-- The page state relevant to the ingestion pipeline: the candidate form,
published field errors, the intake stage, the session ledger
(`addedCards`), the held duplicate match, and the bulk-import state. -/
structure PageSt where
  form : FormData
  fieldErrors : FieldErrors
  stage : Stage
  addedCards : List AddedCard
  pendingDuplicate : Option ExistingCard
  csvRows : List CSVRow
  csvFileName : Str
  csvImportDone : Bool
  importedCount : Nat
deriving DecidableEq

def initialState : PageSt :=
  { form := EMPTY_FORM, fieldErrors := noFieldErrors, stage := .form, addedCards := []
    pendingDuplicate := none, csvRows := [], csvFileName := [], csvImportDone := false
    importedCount := 0 }

/-- `Object.keys(errors).length > 0` on a `FieldErrors` object (a key is
present exactly when a rule assigned a message). -/
def hasErrors (e : FieldErrors) : Bool :=
  e.store.isSome || e.last4.isSome || e.amount.isSome || e.addedBy.isSome

/-- The session part of the duplicate pool: `addedCards.map((c, i) => ...)`
from the `allCards` memo, rendering each committed card as a pool record
with identifier `9000 + i` and today's date. -/
def sessionPoolCards (today : Str) : Nat → List AddedCard → List ExistingCard
  | _, [] => []
  | i, c :: cs =>
    { id := (9000 : Int) + i, store := c.store, last4 := c.last4,
      initialBalance := jsParseFloat c.amount, remainingBalance := jsParseFloat c.amount,
      status := "Active".toList, addedDate := today, addedBy := c.addedBy } ::
      sessionPoolCards today (i + 1) cs

/-- `allCards` from the source: the duplicate pool, pre-existing dataset
records first, then the session-committed records. -/
def allCards (existingCards : List ExistingCard) (added : List AddedCard) (today : Str) :
    List ExistingCard :=
  existingCards ++ sessionPoolCards today 0 added

/-- `commitCard` from the source: append the candidate with identifier
`Date.now()` (the `now` parameter) and move to the success stage. -/
def commitCard (now : Int) (st : PageSt) : PageSt :=
  { st with addedCards := st.addedCards ++ [⟨st.form, now⟩], stage := .success }

/-- `handleSubmitClick` from the source. -/
def handleSubmitClick (existingCards : List ExistingCard) (today : Str) (now : Int)
    (st : PageSt) : PageSt :=
  let errors := validateForm st.form
  if hasErrors errors then { st with fieldErrors := errors }
  else
    match findDuplicate st.form.store st.form.last4 (allCards existingCards st.addedCards today) with
    | some dup => { st with pendingDuplicate := some dup, stage := .confirmDuplicate }
    | none => commitCard now st

/-- `handleAddAnother` from the source. -/
def handleAddAnother (st : PageSt) : PageSt :=
  { st with form := EMPTY_FORM, fieldErrors := noFieldErrors, pendingDuplicate := none,
            stage := .form }

/-- `processFile` from the source, with the asynchronous reader completion
folded in (the model is single-threaded per the cooperative execution
model): a file whose name does not end in ".csv" is dropped by the guard
before anything happens. -/
def processFile (existingCards : List ExistingCard) (name text : Str) (st : PageSt) : PageSt :=
  if !(".csv".toList.isSuffixOf name) then st
  else { st with csvFileName := name, csvImportDone := false,
                 csvRows := parseCSV existingCards text }

/-- The row filter of `handleCSVImport`: `includeAll` keeps every non-error
row, otherwise only rows whose status is exactly `valid`. -/
def selectRows (includeAll : Bool) (rows : List CSVRow) : List CSVRow :=
  rows.filter (fun r => if includeAll then r.status != .error else r.status == .valid)

/-- The `toImport.map((r, i) => ...)` body of `handleCSVImport`: each
selected row becomes a session card with identifier `Date.now() + i`. -/
def importCards (now : Int) : Nat → List CSVRow → List AddedCard
  | _, [] => []
  | i, r :: rs =>
    ⟨⟨r.store, r.last4, r.amount, r.addedBy, r.notes⟩, now + i⟩ :: importCards now (i + 1) rs

/-- `handleCSVImport` from the source. -/
def handleCSVImport (includeAll : Bool) (now : Int) (st : PageSt) : PageSt :=
  let toImport := selectRows includeAll st.csvRows
  { st with addedCards := st.addedCards ++ importCards now 0 toImport,
            importedCount := toImport.length, csvImportDone := true }

-- ── Events ────────────────────────────────────────────────────────────────────

/-- The input sanitisers the change handlers apply before `setField`. -/
def last4Input (v : Str) : Str := (v.filter Char.isDigit).take 4

def amountInput (v : Str) : Str := v.filter (fun c => Char.isDigit c || c = '.')

/-- One external event of a session.  Events carrying a `now` are the ones
whose handler reads `Date.now()`. -/
inductive Event
  | setStore (v : Str)
  | setLast4 (v : Str)
  | setAmount (v : Str)
  | setAddedBy (v : Str)
  | setNotes (v : Str)
  | submit (now : Int)
  | confirm (now : Int)
  | goBack
  | addAnother
  | fileLoad (name text : Str)
  | csvImport (includeAll : Bool) (now : Int)
deriving DecidableEq

/-- One step of the page: each handler fires only when its control is
rendered (form inputs and submit in the `form` stage, confirm / go-back in
the `confirm-duplicate` stage with a held match, add-another in the
`success` stage, the import buttons while rows are shown, not yet
imported, and the button's count is positive). -/
def step (existingCards : List ExistingCard) (today : Str) (e : Event) (st : PageSt) : PageSt :=
  match e with
  | .setStore v =>
    if st.stage = .form then
      { st with form := { st.form with store := v },
                fieldErrors := { st.fieldErrors with store := none } }
    else st
  | .setLast4 v =>
    if st.stage = .form then
      { st with form := { st.form with last4 := last4Input v },
                fieldErrors := { st.fieldErrors with last4 := none } }
    else st
  | .setAmount v =>
    if st.stage = .form then
      { st with form := { st.form with amount := amountInput v },
                fieldErrors := { st.fieldErrors with amount := none } }
    else st
  | .setAddedBy v =>
    if st.stage = .form then
      { st with form := { st.form with addedBy := v },
                fieldErrors := { st.fieldErrors with addedBy := none } }
    else st
  | .setNotes v =>
    if st.stage = .form then { st with form := { st.form with notes := v } } else st
  | .submit now =>
    if st.stage = .form then handleSubmitClick existingCards today now st else st
  | .confirm now =>
    if st.stage = .confirmDuplicate ∧ st.pendingDuplicate.isSome then commitCard now st else st
  | .goBack =>
    if st.stage = .confirmDuplicate ∧ st.pendingDuplicate.isSome then
      { st with pendingDuplicate := none, stage := .form }
    else st
  | .addAnother =>
    if st.stage = .success ∧ ¬st.addedCards.isEmpty then handleAddAnother st else st
  | .fileLoad name text => processFile existingCards name text st
  | .csvImport includeAll now =>
    if ¬st.csvRows.isEmpty ∧ st.csvImportDone = false ∧
        (if includeAll then 0 < (st.csvRows.filter (fun r => r.status == .duplicate)).length
         else 0 < (st.csvRows.filter (fun r => r.status == .valid)).length) then
      handleCSVImport includeAll now st
    else st

/-- Run a list of events from a state. -/
def runFrom (existingCards : List ExistingCard) (today : Str) (st : PageSt)
    (evs : List Event) : PageSt :=
  evs.foldl (fun s e => step existingCards today e s) st

-- ── Concrete instances used by witnesses and counterexamples ──────────────────

/-- Concrete instance: the dataset record of the spec's scenario. -/
def targetCard : ExistingCard :=
  { id := 1, store := "Target".toList, last4 := "5678".toList,
    initialBalance := some ⟨2000, 2⟩, remainingBalance := some ⟨2000, 2⟩,
    status := "Active".toList, addedDate := "2024-01-01".toList,
    addedBy := "Lisa Chen".toList }

/-- The candidate record carried by a parsed CSV row. -/
def rowForm (r : CSVRow) : FormData := ⟨r.store, r.last4, r.amount, r.addedBy, r.notes⟩

/-- Concrete rows and state for the bulk-import witness. -/
def wRowValid : CSVRow :=
  ⟨1, "A".toList, "1111".toList, "5".toList, "X".toList, [], .valid, []⟩

def wRowDup : CSVRow :=
  ⟨2, "B".toList, "2222".toList, "5".toList, "X".toList, [], .duplicate, []⟩

def wRowErr : CSVRow :=
  ⟨3, [], "3333".toList, "5".toList, "X".toList, [], .error, ["Store missing".toList]⟩

def wSt : PageSt := { initialState with csvRows := [wRowValid, wRowDup, wRowErr] }

/-- The spec scenario's candidate: Target / 5678 / 50.00 / Mike Davis. -/
def scenarioForm : FormData :=
  ⟨"Target".toList, "5678".toList, "50.00".toList, "Mike Davis".toList, []⟩

/-- A second, duplicate-free candidate. -/
def freshForm : FormData :=
  ⟨"Walmart".toList, "1111".toList, "25".toList, "Amy Brown".toList, []⟩

/-- The `Date.now()` reading an event's handler uses, when it uses one. -/
def eventClock : Event → Option Int
  | .submit now => some now
  | .confirm now => some now
  | .csvImport _ now => some now
  | _ => none

def cexTrace : List Event :=
  [.setStore "A".toList, .setLast4 "1234".toList, .setAmount "5".toList,
   .setAddedBy "X".toList, .submit 1000, .addAnother, .setStore "B".toList,
   .setLast4 "9999".toList, .setAmount "5".toList, .setAddedBy "X".toList, .submit 1000]

-- ── Helper lemmas ─────────────────────────────────────────────────────────────

theorem dropWhile_idem (p : α → Bool) (l : List α) :
    (l.dropWhile p).dropWhile p = l.dropWhile p := by
  induction l with
  | nil => rfl
  | cons a t ih =>
    cases h : p a
    · simp [List.dropWhile_cons, h]
    · simp [List.dropWhile_cons, h, ih]

theorem dropWhile_take_of_fix (p : α → Bool) {l : List α} (h : l.dropWhile p = l) (n : Nat) :
    (l.take n).dropWhile p = l.take n := by
  cases l with
  | nil => simp
  | cons a t =>
    have ha : p a = false := by
      cases hpa : p a
      · rfl
      · rw [List.dropWhile_cons_of_pos hpa] at h
        have hsub : List.Sublist (List.dropWhile p t) t := List.dropWhile_sublist p
        have := hsub.length_le
        rw [h] at this
        simp at this
    cases n with
    | zero => simp
    | succ m => simp [List.take_succ_cons, List.dropWhile_cons, ha]

theorem dropWhile_eq_drop (p : α → Bool) (l : List α) : ∃ k, l.dropWhile p = l.drop k := by
  induction l with
  | nil => exact ⟨0, rfl⟩
  | cons a t ih =>
    cases h : p a
    · exact ⟨0, by simp [List.dropWhile_cons, h]⟩
    · obtain ⟨k, hk⟩ := ih
      exact ⟨k + 1, by simp [List.dropWhile_cons, h, hk]⟩

theorem trimChars_idem (l : Str) : trimChars (trimChars l) = trimChars l := by
  have hAfix := dropWhile_idem jsWhitespace l
  obtain ⟨k, hk⟩ := dropWhile_eq_drop jsWhitespace (l.dropWhile jsWhitespace).reverse
  have h1 : ((l.dropWhile jsWhitespace).reverse.dropWhile jsWhitespace).reverse.dropWhile
      jsWhitespace = ((l.dropWhile jsWhitespace).reverse.dropWhile jsWhitespace).reverse := by
    rw [hk, List.reverse_drop, List.reverse_reverse]
    exact dropWhile_take_of_fix jsWhitespace hAfix _
  show ((((l.dropWhile jsWhitespace).reverse.dropWhile jsWhitespace).reverse.dropWhile
      jsWhitespace).reverse.dropWhile jsWhitespace).reverse = _
  rw [h1, List.reverse_reverse, dropWhile_idem]
  rfl

theorem trimChars_cons_ws {c : Char} (h : jsWhitespace c = true) (l : Str) :
    trimChars (c :: l) = trimChars l := by
  unfold trimChars
  rw [List.dropWhile_cons_of_pos h]

/-- A parsed number is nonpositive as a rational exactly when its mantissa
is nonpositive. -/
theorem JsNumber.toRat_nonpos_iff (a : JsNumber) : a.toRat ≤ 0 ↔ a.mant ≤ 0 := by
  unfold JsNumber.toRat
  have hpow : (0 : ℚ) < (10 : ℚ) ^ a.scale := by positivity
  rw [div_nonpos_iff]
  constructor
  · rintro (⟨_, h2⟩ | ⟨h1, _⟩)
    · exact absurd h2 (not_le.mpr hpow)
    · exact_mod_cast h1
  · intro hm
    exact Or.inr ⟨by exact_mod_cast hm, le_of_lt hpow⟩

/-- The shared amount rule, characterised the way the spec states it. -/
theorem amountInvalid_iff (s : Str) :
    amountInvalid s = true ↔
      (s = [] ∨ jsParseFloat s = none ∨ ∃ a, jsParseFloat s = some a ∧ a.toRat ≤ 0) := by
  unfold amountInvalid
  cases hp : jsParseFloat s with
  | none => simp [List.isEmpty_iff]
  | some a => simp [List.isEmpty_iff, JsNumber.toRat_nonpos_iff]

-- ── C2 ────────────────────────────────────────────────────────────────────────

/-- C2: `validateForm` carries a key exactly for each failing field, every
rule evaluated independently of the other fields: store fails iff empty or
whitespace-only, last4 fails iff not exactly four decimal digits, amount
fails iff empty, unparseable, or nonpositive, added-by fails iff empty or
whitespace-only, notes never fails, and the mapping is empty iff all four
rules pass.  The last four conjuncts show each field's outcome is a
function of that field alone, so errors accumulate independently. -/
theorem validateForm_spec (f : FormData) :
    ((validateForm f).store = some "Store is required".toList ↔ trimChars f.store = []) ∧
    ((validateForm f).last4 = some "Must be exactly 4 digits".toList ↔
      isFourDigits f.last4 = false) ∧
    ((validateForm f).amount = some "Enter a valid dollar amount".toList ↔
      (f.amount = [] ∨ jsParseFloat f.amount = none ∨
        ∃ a, jsParseFloat f.amount = some a ∧ a.toRat ≤ 0)) ∧
    ((validateForm f).addedBy = some "Added by is required".toList ↔ trimChars f.addedBy = []) ∧
    (∀ n, validateForm { f with notes := n } = validateForm f) ∧
    (validateForm f = noFieldErrors ↔
      (trimChars f.store ≠ [] ∧ isFourDigits f.last4 = true ∧
        ¬ (f.amount = [] ∨ jsParseFloat f.amount = none ∨
            ∃ a, jsParseFloat f.amount = some a ∧ a.toRat ≤ 0) ∧
        trimChars f.addedBy ≠ [])) ∧
    ((validateForm f).store = (validateForm { EMPTY_FORM with store := f.store }).store) ∧
    ((validateForm f).last4 = (validateForm { EMPTY_FORM with last4 := f.last4 }).last4) ∧
    ((validateForm f).amount = (validateForm { EMPTY_FORM with amount := f.amount }).amount) ∧
    ((validateForm f).addedBy = (validateForm { EMPTY_FORM with addedBy := f.addedBy }).addedBy)
    := by
  have hamt := amountInvalid_iff f.amount
  refine ⟨?_, ?_, ?_, ?_, fun n => rfl, ?_, rfl, rfl, rfl, rfl⟩
  · unfold validateForm
    cases h : (trimChars f.store).isEmpty <;>
      simp_all [List.isEmpty_iff]
  · unfold validateForm
    cases h : isFourDigits f.last4 <;> simp_all
  · unfold validateForm
    rw [← hamt]
    cases h : amountInvalid f.amount <;> simp [h]
  · unfold validateForm
    cases h : (trimChars f.addedBy).isEmpty <;>
      simp_all [List.isEmpty_iff]
  · unfold validateForm noFieldErrors
    rw [← hamt]
    cases h1 : (trimChars f.store).isEmpty <;>
      cases h2 : isFourDigits f.last4 <;>
        cases h3 : amountInvalid f.amount <;>
          cases h4 : (trimChars f.addedBy).isEmpty <;>
            simp_all [List.isEmpty_iff, FieldErrors.mk.injEq]

/-- Witness for C2 at the claim's concrete examples: empty, `"0"` and
`"-5"` amounts all yield the amount error, and the scenario candidate
passes all rules with an empty error mapping. -/
theorem validateForm_spec_witness :
    (validateForm EMPTY_FORM).amount = some "Enter a valid dollar amount".toList ∧
    (validateForm { EMPTY_FORM with amount := "0".toList }).amount =
      some "Enter a valid dollar amount".toList ∧
    (validateForm { EMPTY_FORM with amount := "-5".toList }).amount =
      some "Enter a valid dollar amount".toList ∧
    validateForm scenarioForm = noFieldErrors := by
  refine ⟨(validateForm_spec EMPTY_FORM).2.2.1.mpr (Or.inl rfl),
    (validateForm_spec _).2.2.1.mpr (Or.inr (Or.inr ⟨⟨0, 0⟩, by decide,
      (JsNumber.toRat_nonpos_iff ⟨0, 0⟩).mpr (by decide)⟩)),
    (validateForm_spec _).2.2.1.mpr (Or.inr (Or.inr ⟨⟨-5, 0⟩, by decide,
      (JsNumber.toRat_nonpos_iff ⟨-5, 0⟩).mpr (by decide)⟩)),
    (validateForm_spec scenarioForm).2.2.2.2.2.1.mpr ⟨by decide, by decide, ?_, by decide⟩⟩
  rintro (h | h | ⟨a, ha, hle⟩)
  · exact absurd h (by decide)
  · exact absurd h (by decide)
  · rw [show jsParseFloat scenarioForm.amount = some ⟨5000, 2⟩ from by decide] at ha
    cases Option.some.inj ha
    rw [JsNumber.toRat_nonpos_iff] at hle
    exact absurd hle (by decide)

-- ── C3 ────────────────────────────────────────────────────────────────────────

theorem find?_eq_some_split {p : α → Bool} {l : List α} {c : α} (h : l.find? p = some c) :
    p c = true ∧ ∃ pre post, l = pre ++ c :: post ∧ ∀ x ∈ pre, p x = false := by
  induction l with
  | nil => simp at h
  | cons a t ih =>
    cases hpa : p a
    · rw [List.find?_cons_of_neg t (by simp [hpa])] at h
      obtain ⟨hc, pre, post, hsplit, hall⟩ := ih h
      refine ⟨hc, a :: pre, post, by rw [hsplit]; rfl, ?_⟩
      intro x hx
      rcases List.mem_cons.mp hx with rfl | hx'
      · exact hpa
      · exact hall x hx'
    · rw [List.find?_cons_of_pos t hpa] at h
      cases h
      exact ⟨hpa, [], t, rfl, by simp⟩

/-- C3: `findDuplicate` returns the first record in pool iteration order
matching the candidate, where a match is case-insensitive on the store
name and an exact string comparison on the last-4; it returns `none` iff
no record matches; the result only depends on the store argument through
its lowercasing; and the canonical pool (`allCards`) lists pre-existing
dataset records before session-committed records. -/
theorem findDuplicate_spec (store last4 : Str) (cards : List ExistingCard) :
    (∀ c, findDuplicate store last4 cards = some c →
        dupMatch store last4 c = true ∧
        ∃ pre post, cards = pre ++ c :: post ∧ ∀ x ∈ pre, dupMatch store last4 x = false) ∧
    (findDuplicate store last4 cards = none ↔ ∀ c ∈ cards, dupMatch store last4 c = false) ∧
    (∀ other, toLowerStr store = toLowerStr other →
        findDuplicate store last4 cards = findDuplicate other last4 cards) ∧
    (∀ added today, allCards cards added today = cards ++ sessionPoolCards today 0 added) := by
  refine ⟨fun c h => find?_eq_some_split h, ?_, ?_, fun added today => rfl⟩
  · unfold findDuplicate
    rw [List.find?_eq_none]
    constructor
    · intro h c hc
      exact Bool.not_eq_true _ ▸ h c hc
    · intro h c hc
      rw [h c hc]
      simp
  · intro other hother
    unfold findDuplicate dupMatch
    rw [hother]



/-- Witness for C3 at concrete inputs: the match predicate and first-match
decomposition at a matching pool, the case-invariance instance
`findDuplicate("target", ...) = findDuplicate("TARGET", ...)`, and the
exact-string last-4 rule separating "0012" from "12". -/
theorem findDuplicate_spec_witness :
    (dupMatch "target".toList "5678".toList targetCard = true ∧
      ∃ pre post, [targetCard] = pre ++ targetCard :: post ∧
        ∀ x ∈ pre, dupMatch "target".toList "5678".toList x = false) ∧
    findDuplicate "target".toList "5678".toList [targetCard] =
      findDuplicate "TARGET".toList "5678".toList [targetCard] ∧
    findDuplicate "Target".toList "0012".toList [{ targetCard with last4 := "12".toList }] =
      none := by
  refine ⟨(findDuplicate_spec "target".toList "5678".toList [targetCard]).1 targetCard
      (by decide),
    (findDuplicate_spec "target".toList "5678".toList [targetCard]).2.2.1 "TARGET".toList
      (by decide),
    (findDuplicate_spec "Target".toList "0012".toList _).2.1.mpr (by decide)⟩

-- ── C10 ───────────────────────────────────────────────────────────────────────

/-- C10: `parseCSV` trims the whole raw text before splitting into lines,
so parsing is invariant under trimming the input, and surrounding
whitespace — including leading blank lines — is discarded; in particular
the header check is applied to the first non-blank line. -/
theorem parseCSV_trim_agnostic (cards : List ExistingCard) (text : Str) :
    parseCSV cards (trimChars text) = parseCSV cards text ∧
    parseCSV cards ('\n' :: text) = parseCSV cards text ∧
    parseCSV cards (' ' :: text) = parseCSV cards text := by
  refine ⟨?_, ?_, ?_⟩
  · unfold parseCSV csvDataLines
    rw [trimChars_idem]
  · unfold parseCSV csvDataLines
    rw [trimChars_cons_ws (by decide)]
  · unfold parseCSV csvDataLines
    rw [trimChars_cons_ws (by decide)]

-- ── C4 ────────────────────────────────────────────────────────────────────────



theorem trimChars_mapGetD (l : List Str) (i : Nat) :
    trimChars ((l.map trimChars).getD i []) = (l.map trimChars).getD i [] := by
  rw [List.getD_eq_getElem?_getD, List.getElem?_map]
  cases h : l[i]? with
  | none => rfl
  | some y => simp [trimChars_idem]

theorem rowErrors_eq_nil_iff (store last4 amount addedBy : Str) :
    rowErrors store last4 amount addedBy = [] ↔
      (store.isEmpty = false ∧ isFourDigits last4 = true ∧ amountInvalid amount = false ∧
        addedBy.isEmpty = false) := by
  unfold rowErrors
  cases h1 : store.isEmpty <;> cases h2 : isFourDigits last4 <;>
    cases h3 : amountInvalid amount <;> cases h4 : addedBy.isEmpty <;> simp

theorem validateForm_eq_noFieldErrors (f : FormData) :
    validateForm f = noFieldErrors ↔
      ((trimChars f.store).isEmpty = false ∧ isFourDigits f.last4 = true ∧
        amountInvalid f.amount = false ∧ (trimChars f.addedBy).isEmpty = false) := by
  unfold validateForm noFieldErrors
  cases h1 : (trimChars f.store).isEmpty <;> cases h2 : isFourDigits f.last4 <;>
    cases h3 : amountInvalid f.amount <;> cases h4 : (trimChars f.addedBy).isEmpty <;>
      simp [h1, h2, h3, h4, FieldErrors.mk.injEq]

/-- The status/errors derivation shared by every parsed row, for any field
values that are fixed points of trimming (as all split-and-trimmed tokens
are). -/
theorem rowCore_spec (cards : List ExistingCard) (s l a b notes : Str)
    (hs : trimChars s = s) (hb : trimChars b = b) (errors : List Str)
    (he : errors = rowErrors s l a b) (st : RowStatus)
    (hst : st = if !errors.isEmpty then .error else
      if (findDuplicate s l cards).isSome then .duplicate else .valid) :
    (st = .error ↔ errors ≠ []) ∧
    (errors = [] ↔ validateForm ⟨s, l, a, b, notes⟩ = noFieldErrors) ∧
    (st = .duplicate ↔ errors = [] ∧ (findDuplicate s l cards).isSome = true) ∧
    (st = .valid ↔ errors = [] ∧ findDuplicate s l cards = none) := by
  have hlink : errors = [] ↔ validateForm ⟨s, l, a, b, notes⟩ = noFieldErrors := by
    rw [he, rowErrors_eq_nil_iff, validateForm_eq_noFieldErrors]
    simp [hs, hb, List.isEmpty_iff]
  subst hst
  refine ⟨?_, hlink, ?_, ?_⟩ <;>
    cases hemp : errors.isEmpty <;> cases hfd : findDuplicate s l cards <;>
      simp_all [List.isEmpty_iff]

/-- The five per-row facts instantiated at `classifyRow`. -/
theorem classifyRow_spec (cards : List ExistingCard) (i : Nat) (line : Str) :
    ((classifyRow cards i line).errors =
      rowErrors (classifyRow cards i line).store (classifyRow cards i line).last4
        (classifyRow cards i line).amount (classifyRow cards i line).addedBy) ∧
    ((classifyRow cards i line).status = .error ↔ (classifyRow cards i line).errors ≠ []) ∧
    ((classifyRow cards i line).errors = [] ↔
      validateForm (rowForm (classifyRow cards i line)) = noFieldErrors) ∧
    ((classifyRow cards i line).status = .duplicate ↔
      (classifyRow cards i line).errors = [] ∧
        (findDuplicate (classifyRow cards i line).store (classifyRow cards i line).last4
          cards).isSome = true) ∧
    ((classifyRow cards i line).status = .valid ↔
      (classifyRow cards i line).errors = [] ∧
        findDuplicate (classifyRow cards i line).store (classifyRow cards i line).last4 cards
          = none) := by
  refine ⟨rfl, ?_⟩
  exact rowCore_spec cards _ _ _ _ _ (trimChars_mapGetD (line.splitOn ',') 0)
    (trimChars_mapGetD (line.splitOn ',') 3) _ rfl _ rfl

theorem classifyRows_get? (cards : List ExistingCard) (ls : List Str) :
    ∀ (k i : Nat),
      (classifyRows cards k ls).get? i = (ls.get? i).map (fun l => classifyRow cards (k + i) l)
      := by
  induction ls with
  | nil => intro k i; simp [classifyRows]
  | cons a t ih =>
    intro k i
    cases i with
    | zero => simp [classifyRows]
    | succ m =>
      have := ih (k + 1) m
      rw [show k + 1 + m = k + (m + 1) by omega] at this
      simpa [classifyRows] using this

theorem mem_classifyRows {cards : List ExistingCard} {r : CSVRow} :
    ∀ {k : Nat} {ls : List Str}, r ∈ classifyRows cards k ls →
      ∃ i line, r = classifyRow cards i line := by
  intro k ls
  induction ls generalizing k with
  | nil => intro h; simp [classifyRows] at h
  | cons a t ih =>
    intro h
    rcases List.mem_cons.mp h with rfl | h'
    · exact ⟨k, a, rfl⟩
    · exact ih h'

/-- C4: every parsed row's status is derived, never set directly: `error`
iff its (flat, ordered) error list from the shared validation rules is
nonempty — empty exactly when the Field Validator accepts the row's
fields — otherwise `duplicate` iff the Duplicate Index hits in the
pre-existing dataset (the only pool `parseCSV` receives: the session
ledger and earlier rows are not consulted, as the pointwise first
conjunct shows — row `i` is a function of line `i` and the dataset
alone), otherwise `valid`. -/
theorem parseCSV_status_spec (cards : List ExistingCard) (text : Str) :
    (∀ i, (parseCSV cards text).get? i =
      ((csvDataLines text).get? i).map (fun l => classifyRow cards i l)) ∧
    (∀ r ∈ parseCSV cards text,
      r.errors = rowErrors r.store r.last4 r.amount r.addedBy ∧
      (r.status = .error ↔ r.errors ≠ []) ∧
      (r.errors = [] ↔ validateForm (rowForm r) = noFieldErrors) ∧
      (r.status = .duplicate ↔
        r.errors = [] ∧ (findDuplicate r.store r.last4 cards).isSome = true) ∧
      (r.status = .valid ↔ r.errors = [] ∧ findDuplicate r.store r.last4 cards = none)) := by
  constructor
  · intro i
    have h := classifyRows_get? cards (csvDataLines text) 0 i
    simpa [parseCSV] using h
  · intro r hr
    obtain ⟨i, line, rfl⟩ := mem_classifyRows hr
    exact classifyRow_spec cards i line

/-- Witness for C4: the spec's scenario row `Walmart,12,100.00,Sarah
Johnson,` (last-4 too short) is classified `error` with a nonempty error
list containing the last-4 message. -/
theorem parseCSV_status_spec_witness :
    (classifyRow [targetCard] 0 "Walmart,12,100.00,Sarah Johnson,".toList).status = .error ∧
    "Last 4 must be exactly 4 digits".toList ∈
      (classifyRow [targetCard] 0 "Walmart,12,100.00,Sarah Johnson,".toList).errors := by
  have h := (parseCSV_status_spec [targetCard]
      "store,last4,amount,added_by,notes\nWalmart,12,100.00,Sarah Johnson,".toList).2
    (classifyRow [targetCard] 0 "Walmart,12,100.00,Sarah Johnson,".toList) (by decide)
  exact ⟨h.2.1.mpr (by decide), by decide⟩

-- ── C5 ────────────────────────────────────────────────────────────────────────

/-- C5: each surviving line is split on commas with every token trimmed;
the first four tokens become store, last4, amount and added-by (missing
trailing tokens defaulting to the empty string via `getD`); everything
from the fifth token onward is re-joined with commas restored into notes,
so notes containing literal commas survive: the last conjunct shows that a
line assembled from four fields plus any nonempty comma-free note tokens
parses back to exactly those tokens, with notes the comma-rejoin of the
note tokens. -/
theorem parseCSV_fields_spec (cards : List ExistingCard) (i : Nat) (line : Str) :
    ((classifyRow cards i line).store = (lineParts line).getD 0 [] ∧
     (classifyRow cards i line).last4 = (lineParts line).getD 1 [] ∧
     (classifyRow cards i line).amount = (lineParts line).getD 2 [] ∧
     (classifyRow cards i line).addedBy = (lineParts line).getD 3 [] ∧
     (classifyRow cards i line).notes = trimChars ([','].intercalate ((lineParts line).drop 4)) ∧
     (classifyRow cards i line).rowNum = i + 1) ∧
    lineParts line = (line.splitOn ',').map trimChars ∧
    ((lineParts line).length ≤ 4 → (classifyRow cards i line).notes = []) ∧
    (∀ s4 rest : List Str, s4.length = 4 → rest ≠ [] → (∀ t ∈ s4 ++ rest, ',' ∉ t) →
      lineParts ([','].intercalate (s4 ++ rest)) = (s4 ++ rest).map trimChars ∧
      (classifyRow cards i ([','].intercalate (s4 ++ rest))).notes =
        trimChars ([','].intercalate (rest.map trimChars))) := by
  refine ⟨⟨rfl, rfl, rfl, rfl, rfl, rfl⟩, rfl, ?_, ?_⟩
  · intro hlen
    have hdrop : (lineParts line).drop 4 = [] := List.drop_eq_nil_of_le hlen
    show trimChars ([','].intercalate ((lineParts line).drop 4)) = []
    rw [hdrop]
    rfl
  · intro s4 rest hs4 hrest hnc
    have hsplit : ([','].intercalate (s4 ++ rest)).splitOn ',' = s4 ++ rest :=
      List.splitOn_intercalate (s4 ++ rest) ',' hnc (by simp [hrest])
    have hparts : lineParts ([','].intercalate (s4 ++ rest)) = (s4 ++ rest).map trimChars := by
      unfold lineParts
      rw [hsplit]
    refine ⟨hparts, ?_⟩
    show trimChars ([','].intercalate ((lineParts ([','].intercalate (s4 ++ rest))).drop 4)) = _
    rw [hparts, List.map_append]
    rw [show (4 : Nat) = (s4.map trimChars).length by simp [hs4], List.drop_left]

/-- Witness for C5: a line with three comma-separated note tokens keeps
all of them in the notes field. -/
theorem parseCSV_fields_spec_witness :
    lineParts ([','].intercalate
        (["Walmart".toList, "1234".toList, "10".toList, "Sarah".toList] ++
          ["note one".toList, " note two".toList, "x".toList])) =
      (["Walmart".toList, "1234".toList, "10".toList, "Sarah".toList] ++
          ["note one".toList, " note two".toList, "x".toList]).map trimChars ∧
    (classifyRow [] 0 ([','].intercalate
        (["Walmart".toList, "1234".toList, "10".toList, "Sarah".toList] ++
          ["note one".toList, " note two".toList, "x".toList]))).notes =
      "note one,note two,x".toList := by
  have h := (parseCSV_fields_spec [] 0 []).2.2.2
    ["Walmart".toList, "1234".toList, "10".toList, "Sarah".toList]
    ["note one".toList, " note two".toList, "x".toList]
    (by decide) (by decide) (by decide)
  refine ⟨h.1, ?_⟩
  rw [h.2]
  decide

-- ── C6 ────────────────────────────────────────────────────────────────────────

theorem importCards_map_toFormData (now : Int) :
    ∀ (k : Nat) (rs : List CSVRow),
      (importCards now k rs).map AddedCard.toFormData = rs.map rowForm := by
  intro k rs
  induction rs generalizing k with
  | nil => rfl
  | cons r t ih => simp [importCards, rowForm, ih]

theorem importCards_length (now : Int) :
    ∀ (k : Nat) (rs : List CSVRow), (importCards now k rs).length = rs.length := by
  intro k rs
  induction rs generalizing k with
  | nil => rfl
  | cons r t ih => simp [importCards, ih]

theorem selectRows_mem_iff (includeAll : Bool) (rows : List CSVRow) (r : CSVRow) :
    r ∈ selectRows includeAll rows ↔
      (r ∈ rows ∧ (if includeAll then r.status ≠ .error else r.status = .valid)) := by
  unfold selectRows
  rw [List.mem_filter]
  cases includeAll <;> simp

/-- C6: bulk import appends to the ledger exactly the selected rows — with
`includeAll = false` (the validOnly policy) the rows whose status is
`valid`, with `includeAll = true` the rows whose status is not `error` —
in file order (the selection is an order-preserving sublist and the
appended cards carry its rows' fields in order); an error row is never
selected; the reported count equals the number of rows appended. -/
theorem handleCSVImport_spec (st : PageSt) (includeAll : Bool) (now : Int) :
    ((handleCSVImport includeAll now st).addedCards =
      st.addedCards ++ importCards now 0 (selectRows includeAll st.csvRows)) ∧
    ((importCards now 0 (selectRows includeAll st.csvRows)).map AddedCard.toFormData =
      (selectRows includeAll st.csvRows).map rowForm) ∧
    List.Sublist (selectRows includeAll st.csvRows) st.csvRows ∧
    (∀ r, r ∈ selectRows includeAll st.csvRows ↔
      (r ∈ st.csvRows ∧ (if includeAll then r.status ≠ .error else r.status = .valid))) ∧
    (∀ r ∈ selectRows includeAll st.csvRows, r.status ≠ .error) ∧
    ((handleCSVImport includeAll now st).importedCount =
      (selectRows includeAll st.csvRows).length) ∧
    ((handleCSVImport includeAll now st).addedCards.length =
      st.addedCards.length + (selectRows includeAll st.csvRows).length) := by
  refine ⟨rfl, importCards_map_toFormData now 0 _, List.filter_sublist _,
    selectRows_mem_iff includeAll st.csvRows, ?_, rfl, ?_⟩
  · intro r hr
    have h := (selectRows_mem_iff includeAll st.csvRows r).mp hr
    cases includeAll with
    | true => simpa using h.2
    | false =>
      have hv : r.status = .valid := by simpa using h.2
      rw [hv]
      intro hcontra
      cases hcontra
  · show (st.addedCards ++ importCards now 0 (selectRows includeAll st.csvRows)).length = _
    rw [List.length_append, importCards_length]



/-- Witness for C6: importing the three-row preview with the
include-duplicates policy appends the valid and duplicate rows (count 2)
and the selected row is not an error row; the validOnly policy selects
only the valid row. -/
theorem handleCSVImport_spec_witness :
    (handleCSVImport true 5 wSt).importedCount = 2 ∧
    (handleCSVImport true 5 wSt).addedCards.length = 2 ∧
    (handleCSVImport false 5 wSt).importedCount = 1 ∧
    wRowDup.status ≠ RowStatus.error := by
  refine ⟨?_, ?_, ?_, (handleCSVImport_spec wSt true 5).2.2.2.2.1 wRowDup (by decide)⟩
  · rw [(handleCSVImport_spec wSt true 5).2.2.2.2.2.1]
    decide
  · rw [(handleCSVImport_spec wSt true 5).2.2.2.2.2.2]
    decide
  · rw [(handleCSVImport_spec wSt false 5).2.2.2.2.2.1]
    decide

-- ── C1 ────────────────────────────────────────────────────────────────────────

/-- C1: the intake state machine transitions.  From `form`: a submit with
validation errors stays in `form` publishing the field errors and commits
nothing; a valid submit whose candidate has a duplicate in the current
pool (pre-existing dataset plus session commits) moves to
`confirm-duplicate` holding the matched record with nothing appended; a
valid submit with no duplicate moves directly to `success` appending
exactly one committed record.  From `confirm-duplicate`: confirm moves to
`success` appending exactly one record; go-back returns to `form`
discarding the held match while keeping the candidate fields.  From
`success`: add-another returns to `form` with an empty candidate and the
ledger intact.  Each conclusion is a full-state equation, so every
component not mentioned (in particular the ledger on non-commit
transitions and the candidate fields on go-back) is unchanged. -/
theorem intake_transitions (existingCards : List ExistingCard) (today : Str) (st : PageSt)
    (now : Int) :
    (st.stage = .form → hasErrors (validateForm st.form) = true →
      step existingCards today (.submit now) st =
        { st with fieldErrors := validateForm st.form }) ∧
    (∀ d, st.stage = .form → hasErrors (validateForm st.form) = false →
      findDuplicate st.form.store st.form.last4 (allCards existingCards st.addedCards today) =
        some d →
      step existingCards today (.submit now) st =
        { st with pendingDuplicate := some d, stage := .confirmDuplicate }) ∧
    (st.stage = .form → hasErrors (validateForm st.form) = false →
      findDuplicate st.form.store st.form.last4 (allCards existingCards st.addedCards today) =
        none →
      step existingCards today (.submit now) st =
        { st with stage := .success, addedCards := st.addedCards ++ [⟨st.form, now⟩] }) ∧
    (st.stage = .confirmDuplicate → st.pendingDuplicate.isSome = true →
      step existingCards today (.confirm now) st =
        { st with stage := .success, addedCards := st.addedCards ++ [⟨st.form, now⟩] }) ∧
    (st.stage = .confirmDuplicate → st.pendingDuplicate.isSome = true →
      step existingCards today .goBack st =
        { st with pendingDuplicate := none, stage := .form }) ∧
    (st.stage = .success → st.addedCards ≠ [] →
      step existingCards today .addAnother st =
        { st with form := EMPTY_FORM, fieldErrors := noFieldErrors, pendingDuplicate := none,
                  stage := .form }) := by
  refine ⟨?_, ?_, ?_, ?_, ?_, ?_⟩
  · intro h1 h2
    simp [step, h1, handleSubmitClick, h2]
  · intro d h1 h2 h3
    simp [step, h1, handleSubmitClick, h2, h3]
  · intro h1 h2 h3
    simp [step, h1, handleSubmitClick, h2, h3, commitCard]
  · intro h1 h2
    simp [step, h1, h2, commitCard]
  · intro h1 h2
    simp [step, h1, h2]
  · intro h1 h2
    simp [step, h1, h2, handleAddAnother, List.isEmpty_iff]





/-- Witness for C1, exercising all six transitions at concrete states
(the duplicate path is the spec's Target/5678 scenario against a dataset
holding `targetCard`). -/
theorem intake_transitions_witness :
    (step [targetCard] [] (.submit 100) initialState =
      { initialState with fieldErrors := validateForm EMPTY_FORM }) ∧
    (step [targetCard] [] (.submit 100) { initialState with form := scenarioForm } =
      { initialState with form := scenarioForm, pendingDuplicate := some targetCard,
                          stage := .confirmDuplicate }) ∧
    (step [targetCard] [] (.submit 100) { initialState with form := freshForm } =
      { initialState with form := freshForm, stage := .success,
                          addedCards := [⟨freshForm, 100⟩] }) ∧
    (step [targetCard] [] (.confirm 100)
        { initialState with form := scenarioForm, stage := .confirmDuplicate,
                            pendingDuplicate := some targetCard } =
      { initialState with form := scenarioForm, stage := .success,
                          pendingDuplicate := some targetCard,
                          addedCards := [⟨scenarioForm, 100⟩] }) ∧
    (step [targetCard] [] .goBack
        { initialState with form := scenarioForm, stage := .confirmDuplicate,
                            pendingDuplicate := some targetCard } =
      { initialState with form := scenarioForm, stage := .form,
                          pendingDuplicate := none }) ∧
    (step [targetCard] [] .addAnother
        { initialState with form := scenarioForm, stage := .success,
                            addedCards := [⟨scenarioForm, 100⟩] } =
      { initialState with addedCards := [⟨scenarioForm, 100⟩] }) := by
  refine ⟨(intake_transitions [targetCard] [] initialState 100).1 rfl (by decide),
    (intake_transitions [targetCard] [] { initialState with form := scenarioForm }
      100).2.1 targetCard rfl (by decide) (by decide),
    (intake_transitions [targetCard] [] { initialState with form := freshForm }
      100).2.2.1 rfl (by decide) (by decide),
    (intake_transitions [targetCard] [] _ 100).2.2.2.1 rfl (by decide),
    (intake_transitions [targetCard] [] _ 100).2.2.2.2.1 rfl (by decide),
    (intake_transitions [targetCard] [] _ 100).2.2.2.2.2 rfl (by decide)⟩

-- ── C7 ────────────────────────────────────────────────────────────────────────



theorem importCards_chain (now : Int) :
    ∀ (k : Nat) (rs : List CSVRow),
      List.Chain' (fun a b : AddedCard => a.id < b.id) (importCards now k rs) := by
  intro k rs
  induction rs generalizing k with
  | nil => simp [importCards]
  | cons r t ih =>
    cases t with
    | nil => simp [importCards]
    | cons r2 t2 =>
      rw [importCards, importCards, List.chain'_cons]
      refine ⟨by simp, ?_⟩
      have h := ih (k + 1)
      rwa [importCards] at h

theorem importCards_id_bounds (now : Int) :
    ∀ (k : Nat) (rs : List CSVRow) (c : AddedCard), c ∈ importCards now k rs →
      now + k ≤ c.id ∧ c.id < now + k + rs.length := by
  intro k rs
  induction rs generalizing k with
  | nil => intro c h; simp [importCards] at h
  | cons r t ih =>
    intro c h
    rw [importCards, List.mem_cons] at h
    rcases h with rfl | h'
    · simp
    · have hb := ih (k + 1) c h'
      simp only [List.length_cons]
      push_cast at hb ⊢
      omega

/-- What one step appends to the ledger: some (possibly empty) tail whose
identifiers strictly increase within the step and all lie in the window
`[now, now + tail.length)` of the step's clock reading. -/
theorem step_tail_spec (existingCards : List ExistingCard) (today : Str) (e : Event)
    (st : PageSt) :
    ∃ tail, (step existingCards today e st).addedCards = st.addedCards ++ tail ∧
      List.Chain' (fun a b : AddedCard => a.id < b.id) tail ∧
      ∀ now, eventClock e = some now →
        ∀ c ∈ tail, now ≤ c.id ∧ c.id < now + tail.length := by
  cases e with
  | setStore v => exact ⟨[], by simp [step]; split <;> simp, by simp, by simp [eventClock]⟩
  | setLast4 v => exact ⟨[], by simp [step]; split <;> simp, by simp, by simp [eventClock]⟩
  | setAmount v => exact ⟨[], by simp [step]; split <;> simp, by simp, by simp [eventClock]⟩
  | setAddedBy v => exact ⟨[], by simp [step]; split <;> simp, by simp, by simp [eventClock]⟩
  | setNotes v => exact ⟨[], by simp [step]; split <;> simp, by simp, by simp [eventClock]⟩
  | goBack => exact ⟨[], by simp [step]; split <;> simp, by simp, by simp [eventClock]⟩
  | addAnother =>
    exact ⟨[], by simp [step]; split <;> simp [handleAddAnother], by simp,
      by simp [eventClock]⟩
  | fileLoad name text =>
    refine ⟨[], ?_, by simp, by simp [eventClock]⟩
    simp only [step, processFile]
    split <;> simp
  | submit now =>
    by_cases hstage : st.stage = .form
    · by_cases herr : hasErrors (validateForm st.form) = true
      · exact ⟨[], by simp [step, hstage, handleSubmitClick, herr], by simp,
          by simp [eventClock]⟩
      · cases hfd : findDuplicate st.form.store st.form.last4
            (allCards existingCards st.addedCards today) with
        | some d =>
          exact ⟨[], by simp [step, hstage, handleSubmitClick,
            Bool.of_not_eq_true herr, hfd], by simp, by simp [eventClock]⟩
        | none =>
          refine ⟨[⟨st.form, now⟩], by simp [step, hstage, handleSubmitClick,
            Bool.of_not_eq_true herr, hfd, commitCard], by simp, ?_⟩
          intro n hn c hc
          simp only [eventClock, Option.some.injEq] at hn
          subst hn
          rcases List.mem_singleton.mp hc with rfl
          simp
    · exact ⟨[], by simp [step, hstage], by simp, by simp [eventClock]⟩
  | confirm now =>
    by_cases hg : st.stage = .confirmDuplicate ∧ st.pendingDuplicate.isSome = true
    · refine ⟨[⟨st.form, now⟩], by simp [step, hg.1, hg.2, commitCard], by simp, ?_⟩
      intro n hn c hc
      simp only [eventClock, Option.some.injEq] at hn
      subst hn
      rcases List.mem_singleton.mp hc with rfl
      simp
    · exact ⟨[], by simp only [step]; rw [if_neg hg]; simp, by simp, by simp [eventClock]⟩
  | csvImport includeAll now =>
    by_cases hg : ¬st.csvRows.isEmpty ∧ st.csvImportDone = false ∧
        (if includeAll then 0 < (st.csvRows.filter (fun r => r.status == .duplicate)).length
         else 0 < (st.csvRows.filter (fun r => r.status == .valid)).length)
    · refine ⟨importCards now 0 (selectRows includeAll st.csvRows),
        by simp only [step]; rw [if_pos hg]; rfl, importCards_chain now 0 _, ?_⟩
      intro n hn c hc
      simp only [eventClock, Option.some.injEq] at hn
      subst hn
      have hb := importCards_id_bounds now 0 (selectRows includeAll st.csvRows) c hc
      rw [importCards_length]
      constructor
      · omega
      · omega
    · exact ⟨[], by simp only [step]; rw [if_neg hg]; simp, by simp, by simp [eventClock]⟩

/-- C7 counterexample: two valid single-record submits whose `Date.now()`
readings fall in the same millisecond (the clock trace `[1000, 1000]` is
non-decreasing, hence realizable) commit two ledger entries with equal
identifiers `[1000, 1000]`, so identifiers are not strictly increasing
across commits; and against a dataset whose record carries identifier
1000, the committed identifier collides with a pre-existing identifier,
so the claimed disjointness is not enforced either. -/
theorem ledger_ids_counterexample :
    ((runFrom [] [] initialState cexTrace).addedCards.map AddedCard.id = [1000, 1000]) ∧
    ¬ List.Chain' (fun a b : Int => a < b)
        ((runFrom [] [] initialState cexTrace).addedCards.map AddedCard.id) ∧
    (cexTrace.filterMap eventClock = [1000, 1000] ∧
      List.Chain' (fun a b : Int => a ≤ b) (cexTrace.filterMap eventClock)) ∧
    ((runFrom [{ targetCard with id := 1000 }] [] initialState
        (cexTrace.take 5)).addedCards.map AddedCard.id = [1000] ∧
      ({ targetCard with id := 1000 } : ExistingCard).id = 1000) := by
  have h1 : (runFrom [] [] initialState cexTrace).addedCards.map AddedCard.id =
      [1000, 1000] := by decide
  refine ⟨h1, ?_, ⟨by decide, ?_⟩, by decide, rfl⟩
  · rw [h1]
    simp [List.chain'_cons]
  · have h2 : cexTrace.filterMap eventClock = [1000, 1000] := by decide
    rw [h2]
    simp [List.chain'_cons]

/-- C7 amended: across every operation of a session the ledger only ever
appends — the previous entries remain an unchanged prefix — and the
identifiers appended by one operation are strictly increasing within that
operation and lie in `[now, now + count)` for that operation's clock
reading, so they exceed earlier identifiers (and avoid dataset
identifiers) exactly when the clock has advanced past the earlier
windows; neither strict cross-operation growth nor disjointness from the
dataset's identifier space is enforced unconditionally. -/
theorem ledger_append_spec (existingCards : List ExistingCard) (today : Str) (st : PageSt) :
    (∀ evs, ∃ tail, (runFrom existingCards today st evs).addedCards =
      st.addedCards ++ tail) ∧
    (∀ e, ∃ tail, (step existingCards today e st).addedCards = st.addedCards ++ tail ∧
      List.Chain' (fun a b : AddedCard => a.id < b.id) tail ∧
      ∀ now, eventClock e = some now →
        ∀ c ∈ tail, now ≤ c.id ∧ c.id < now + tail.length) := by
  constructor
  · intro evs
    induction evs generalizing st with
    | nil => exact ⟨[], by simp [runFrom]⟩
    | cons e t ih =>
      obtain ⟨tail1, h1, _, _⟩ := step_tail_spec existingCards today e st
      obtain ⟨tail2, h2⟩ := ih (step existingCards today e st)
      refine ⟨tail1 ++ tail2, ?_⟩
      rw [show runFrom existingCards today st (e :: t) =
        runFrom existingCards today (step existingCards today e st) t from rfl, h2, h1,
        List.append_assoc]
  · exact fun e => step_tail_spec existingCards today e st

/-- Witness for C7's amended theorem: at a concrete state holding one
preview row, the csv-import step appends a tail `[⟨fields, 5⟩]` whose
single identifier sits in the window `[5, 6)` of the clock reading 5. -/
theorem ledger_append_spec_witness :
    ∃ tail, (step [] [] (.csvImport false 5) wSt).addedCards = wSt.addedCards ++ tail ∧
      List.Chain' (fun a b : AddedCard => a.id < b.id) tail ∧
      ∀ now, eventClock (.csvImport false 5) = some now →
        ∀ c ∈ tail, now ≤ c.id ∧ c.id < now + tail.length := by
  have h := (ledger_append_spec [] [] wSt).2 (.csvImport false 5)
  obtain ⟨tail, h1, h2, h3⟩ := h
  exact ⟨tail, h1, h2, fun now hn c hc => h3 now hn c hc⟩

-- ── C8 ────────────────────────────────────────────────────────────────────────

/-- C8: parsing the fixed CSV template against an empty pre-existing
dataset yields exactly two rows, numbered 1 and 2, both `valid` with no
error messages. -/
theorem template_roundtrip :
    (parseCSV [] CSV_TEMPLATE).map (fun r => (r.rowNum, r.status, r.errors)) =
      [(1, .valid, []), (2, .valid, [])] := by
  decide

-- ── C9 ────────────────────────────────────────────────────────────────────────

/-- C9 counterexample: uploading a file named `data.txt` leaves the page
state bit-for-bit unchanged — in particular the file name is not even
recorded — so while the "rejected before parsing, no partial row output,
ledger unchanged" half of the claim holds, the rejection is *silent*: no
report of any kind reaches the operator, against the claim's "reported
once". -/
theorem processFile_reject_counterexample :
    processFile [targetCard] "data.txt".toList "Walmart,1234,5,X,".toList wSt = wSt ∧
    processFile [targetCard] "data.txt".toList "Walmart,1234,5,X,".toList wSt ≠
      { wSt with csvFileName := "data.txt".toList } := by
  decide

/-- C9 amended: a file whose name does not end in ".csv" is rejected
before parsing begins with no operator-visible report: the handler
returns the state unchanged, so no partial row output is produced and the
parsed-row sequence and session ledger are untouched. -/
theorem processFile_reject_silent (existingCards : List ExistingCard) (name text : Str)
    (st : PageSt) (h : ".csv".toList.isSuffixOf name = false) :
    processFile existingCards name text st = st := by
  unfold processFile
  rw [h]
  rfl

/-- Witness for C9's amended theorem at the concrete rejected upload. -/
theorem processFile_reject_silent_witness :
    ".csv".toList.isSuffixOf "data.txt".toList = false ∧
    processFile [] "data.txt".toList [] initialState = initialState :=
  ⟨by decide, processFile_reject_silent [] "data.txt".toList [] initialState (by decide)⟩

